import Mathlib

/-!
Verification of the hybrid ranking engine of `src/search/semantic_search.py`
(`MemoryOptimizedSearchEngine`).

Modelling conventions:
* Numeric scores are rationals (`ℚ`): the claims under study concern the
  ranking, filtering and state-update logic, not floating-point rounding,
  and every similarity/weight computation in the source is plain field
  arithmetic.  The `astype('float16')` narrowing at line 143 is a precision
  detail with no bearing on any claim and is modelled as the identity.
* The calls into external libraries — `SentenceTransformer.encode`,
  `TfidfVectorizer.fit_transform`/`transform` and sklearn's
  `cosine_similarity` — are black boxes per the spec (§4.1).  They enter the
  model as oracle parameters: `search` receives the per-record
  `semantic_scores` and `keyword_scores` arrays (the outputs of lines
  203–226) directly, `index_books` receives fallible `encode` and
  `fitTransform` oracles, and `recommend_similar` receives a cosine oracle.
* A Python function that can raise an uncaught exception is modelled with
  an `Option`/`Except` result: `none`/`.error` marks the raising run and the
  state it leaves behind is returned alongside where the claims need it.
* `pickle.load` of a cache file is modelled as `Option (Except Unit _)`:
  `none` means the file does not exist (`Path.exists` is false), `.error`
  means opening/unpickling raised inside the `try` block.
-/

attribute [local semireducible] Rat.mul Rat.add Rat.sub Rat.inv

/-- A Python dict value that may be absent, `None`, or a string.
`d.get(k)` yields `None` for both `missing` and `null`; `d.get(k, '')`
yields the `''` default only for `missing`.  The distinction matters at
line 238: `book.get('genres', '').lower()` raises `AttributeError` when the
key is present with value `None` — the shape DB-sourced records have, since
`normalize_genres` (src/transformation/clean_books.py) returns `None` and
`get_recent_books` (src/storage/db.py) returns `dict(row)` with every
column key present. -/
inductive PyStr where
  | missing : PyStr
  | null : PyStr
  | str : String → PyStr
deriving DecidableEq, Repr

/-- A book record as consumed by the engine: the four dict keys the engine
reads.  For `isbn`, `title` and `description` the engine only tests
truthiness or equality, under which an absent key and a `None` value are
indistinguishable, so `Option String` (with `none` for both) suffices; for
`genres` the two are distinguished (line 238), so the field is a `PyStr`.
Other keys of the Python dict are never touched by the engine and are not
modelled. -/
structure Book where
  isbn : Option String
  title : Option String
  description : Option String
  genres : PyStr
deriving DecidableEq, Repr

/-- The fitted keyword space (sklearn `TfidfVectorizer` after `fit`): the
engine only ever stores it and hands it to `transform`, so the model keeps
just its fitted vocabulary, whose size is the keyword-vector dimension. -/
structure TfidfVectorizer where
  vocab : List String
deriving DecidableEq, Repr

/-- The mutable state of `MemoryOptimizedSearchEngine` (lines 47–50):
`books`, `embeddings`, `tfidf_vectorizer`, `tfidf_matrix`.  `none` models
Python `None`.  The lazily loaded `model` attribute is the embedding oracle
and is not part of the modelled state. -/
structure Engine where
  books : List Book
  embeddings : Option (List (List ℚ))
  tfidf_vectorizer : Option TfidfVectorizer
  tfidf_matrix : Option (List (List ℚ))
deriving DecidableEq, Repr

/-- A dict returned by `search`: a copy of the book plus
`similarity_score` (the combined score), `semantic_score`, `keyword_score`
(lines 249–252). -/
structure SearchResult where
  book : Book
  similarity_score : ℚ
  semantic_score : ℚ
  keyword_score : ℚ
deriving DecidableEq, Repr

/-- A dict returned by `recommend_similar`: a copy of the book plus the
single `similarity_score` (lines 289–290). -/
structure RecResult where
  book : Book
  similarity_score : ℚ
deriving DecidableEq, Repr

/-- The count-bearing progress/outcome messages `index_books` prints; the
constructors mirror, in order, the prints at lines 100 (`Embeddings
exist...`), 103 (`Indexing N books`), 107 (`Books with descriptions: N`),
110 (`No books to index`) and 170 (`Indexed N books`).  Constant progress
strings with no data are elided. -/
inductive LogMsg where
  | embeddingsExist : LogMsg
  | indexing : Nat → LogMsg
  | withDescriptions : Nat → LogMsg
  | noBooks : LogMsg
  | indexed : Nat → LogMsg
deriving DecidableEq, Repr

/-- Result of a call to `index_books`: the engine state after the call,
whether an exception propagated out of the call, and the printed report. -/
structure IndexBooksResult where
  state : Engine
  raised : Bool
  log : List LogMsg
deriving DecidableEq, Repr

/-- Contents of the embeddings cache file (`_save_index` lines 176–180):
a dict with keys `embeddings` and `tfidf_matrix`, either of which may hold
Python `None` (the engine pickles its own fields). -/
structure EmbPickle where
  embeddings : Option (List (List ℚ))
  tfidf_matrix : Option (List (List ℚ))
deriving DecidableEq, Repr

/-- Contents of the index cache file (`_save_index` lines 182–186): a dict
with keys `books` and `tfidf_vectorizer`. -/
structure IdxPickle where
  books : List Book
  tfidf_vectorizer : Option TfidfVectorizer
deriving DecidableEq, Repr

/-- Python substring containment `needle in hay` on character lists: some
suffix of `hay` starts with `needle`.  The empty needle is contained in
everything, as in Python. -/
def charsContain (hay needle : List Char) : Bool :=
  (List.range (hay.length + 1)).any fun i => needle.isPrefixOf (hay.drop i)

/-- Python `needle in hay` on strings. -/
def strContains (hay needle : String) : Bool :=
  charsContain hay.toList needle.toList

/-- Python truthiness of `book.get('description')` (line 106): present and
non-empty. -/
def hasDescription (b : Book) : Bool :=
  match b.description with
  | some d => !d.isEmpty
  | none => false

/-- The text blob vectorized for one book (lines 116–128): `Title: ...`,
the description truncated to 500 characters, and `Genres: ...`, joined by
single spaces, each part present only when the field is truthy. -/
def bookText (b : Book) : String :=
  String.intercalate " "
    ((match b.title with
      | some t => if t.isEmpty then [] else ["Title: " ++ t]
      | none => []) ++
     (match b.description with
      | some d => if d.isEmpty then [] else [String.take d 500]
      | none => []) ++
     (match b.genres with
      | .str g => if g.isEmpty then [] else ["Genres: " ++ g]
      | _ => []))

/-- The state `__init__` builds before `_load_if_exists` runs (lines
44–50): empty corpus, nothing loaded. -/
def initEngine : Engine :=
  { books := [], embeddings := none, tfidf_vectorizer := none, tfidf_matrix := none }

/-- `_load_if_exists` (lines 62–87).  `embFile`/`idxFile` model the two
cache files: `none` when the file does not exist, `some (.error ())` when
opening/unpickling it raises, `some (.ok _)` when it loads.  Both files
must exist for any loading to happen (line 64).  The first file assigns
`embeddings` and `tfidf_matrix` (lines 68–71), the second assigns `books`
and `tfidf_vectorizer` (lines 73–76); the `except` handler (lines 84–87)
resets only `books` and `embeddings`, leaving the tfidf fields however the
partial execution left them. -/
def load_if_exists (st : Engine) (embFile : Option (Except Unit EmbPickle))
    (idxFile : Option (Except Unit IdxPickle)) : Engine :=
  match embFile, idxFile with
  | some eF, some iF =>
    match eF with
    | .error _ => { st with books := [], embeddings := none }
    | .ok ep =>
      let st1 := { st with embeddings := ep.embeddings, tfidf_matrix := ep.tfidf_matrix }
      match iF with
      | .error _ => { st1 with books := [], embeddings := none }
      | .ok ip => { st1 with books := ip.books, tfidf_vectorizer := ip.tfidf_vectorizer }
  | _, _ => st

/-- The fresh, not yet fitted `TfidfVectorizer(...)` object constructed at
line 154, before `fit_transform` runs: empty vocabulary. -/
def unfittedVectorizer : TfidfVectorizer := { vocab := [] }

/-- `index_books` (lines 89–170), with the two fallible external calls as
oracles: `encode` models `self.model.encode(texts, ...)` (line 135) and
`fitTransform` models `TfidfVectorizer(...).fit_transform(texts)` (lines
154–159); `.error` is a raised exception, which propagates uncaught
(`raised := true` in the result).  State updates happen in source order:
`self.books` is assigned (line 113) before `encode` runs, `self.embeddings`
(line 143) before `fit_transform` runs, and `self.tfidf_vectorizer` holds
the fresh unfitted object if `fit_transform` itself raises.  `_save_index`
and the model load/unload are I/O with no effect on the modelled state. -/
def index_books (e : Engine)
    (encode : List String → Except Unit (List (List ℚ)))
    (fitTransform : List String → Except Unit (TfidfVectorizer × List (List ℚ)))
    (books : List Book) (force_reindex : Bool) : IndexBooksResult :=
  if !force_reindex && e.embeddings.isSome then
    { state := e, raised := false, log := [.embeddingsExist] }
  else
    let valid_books := books.filter hasDescription
    if valid_books.isEmpty then
      { state := e, raised := false,
        log := [.indexing books.length, .withDescriptions valid_books.length, .noBooks] }
    else
      let e1 := { e with books := valid_books }
      let texts := valid_books.map bookText
      match encode texts with
      | .error _ =>
        { state := e1, raised := true,
          log := [.indexing books.length, .withDescriptions valid_books.length] }
      | .ok embs =>
        let e2 := { e1 with embeddings := some embs }
        match fitTransform texts with
        | .error _ =>
          { state := { e2 with tfidf_vectorizer := some unfittedVectorizer }, raised := true,
            log := [.indexing books.length, .withDescriptions valid_books.length] }
        | .ok vm =>
          { state := { e2 with tfidf_vectorizer := some vm.1, tfidf_matrix := some vm.2 },
            raised := false,
            log := [.indexing books.length, .withDescriptions valid_books.length,
                    .indexed valid_books.length] }

/-- Elementwise hybrid score (lines 229–232):
`semantic_weight * semantic_scores + keyword_weight * keyword_scores`. -/
def combinedOf (sw kw : ℚ) (sem key : List ℚ) : List ℚ :=
  List.zipWith (fun s k => sw * s + kw * k) sem key

/-- Python truthiness of the `genre_filter` argument at line 235: a filter
is active only when it is present and non-empty (an empty list is falsy). -/
def gfActive (gf : Option (List String)) : Bool :=
  match gf with
  | none => false
  | some l => !l.isEmpty

/-- Python `str.lower()`, modelled characterwise (the genre data is ASCII
text; `String.map` itself is not kernel-reducible, so the model maps
`Char.toLower` over the character list). -/
def strLower (s : String) : String :=
  String.mk (s.toList.map Char.toLower)

/-- `book.get('genres', '').lower()` (line 238): the `''` default applies
only when the key is absent; a key present with value `None` makes
`.lower()` raise `AttributeError`, modelled as `none`. -/
def genresLower (b : Book) : Option String :=
  match b.genres with
  | .missing => some ""
  | .null => none
  | .str s => some (strLower s)

/-- The in-place zeroing loop of lines 236–240: iterate over
`enumerate(self.books)` with running index `i`; for each book compute the
lowered genre text (raising — `none` — when the genres value is `None`),
and zero `combined_scores[i]` when no (already lowercased) filter term is a
substring of it.  The numpy assignment `combined_scores[i] = 0` is
modelled with `List.set` (a silent no-op out of range, where numpy would
raise `IndexError`; the two sequences have equal length in every state the
engine itself builds). -/
def applyGenreFilter (gfl : List String) : List Book → Nat → List ℚ → Option (List ℚ)
  | [], _, cs => some cs
  | b :: bs, i, cs =>
    match genresLower b with
    | none => none
    | some book_genres =>
      if gfl.any (fun gf => strContains book_genres gf) then
        applyGenreFilter gfl bs (i + 1) cs
      else
        applyGenreFilter gfl bs (i + 1) (cs.set i 0)

/-- The combined-score array after the optional genre filtering (lines
229–240): the filter terms are lowercased (line 236) and the zeroing loop
runs only when the filter argument is truthy; `none` is the loop raising
`AttributeError` on a `None` genres value. -/
def adjustedOf (books : List Book) (sem key : List ℚ) (sw kw : ℚ)
    (gf : Option (List String)) : Option (List ℚ) :=
  if gfActive gf then
    applyGenreFilter ((gf.getD []).map strLower) books 0 (combinedOf sw kw sem key)
  else some (combinedOf sw kw sem key)

/-- Ascending comparison used to model `np.argsort`: order index `i` before
index `j` when its score is smaller, breaking score ties by the index order
(the deterministic stable reading of argsort; numpy's own small-array
insertion sort behaves exactly so). -/
def rankLE (a : List ℚ) (i j : Nat) : Prop :=
  a.getD i 0 < a.getD j 0 ∨ (a.getD i 0 = a.getD j 0 ∧ i ≤ j)

instance rankLE.decRel (a : List ℚ) : DecidableRel (rankLE a) := fun i j =>
  inferInstanceAs (Decidable (_ ∨ _))

/-- `np.argsort(a)`: the indices `0, ..., len a - 1` sorted ascending by
score, ties in index order. -/
def argsortAsc (a : List ℚ) : List Nat :=
  List.insertionSort (rankLE a) (List.range a.length)

/-- `np.argsort(a)[::-1]` (lines 243 and 284): the ascending argsort,
reversed. -/
def argsortDesc (a : List ℚ) : List Nat :=
  (argsortAsc a).reverse

/-- The result-collection loop of `search` (lines 246–253): walk the chosen
indices in order, keep those with a strictly positive (post-filter)
combined score, and emit the book copy with its three scores.  `books[j]`
on an out-of-range index is a raised `IndexError`, modelled as `none`. -/
def collectSearch (books : List Book) (sem key adj : List ℚ) :
    List Nat → Option (List SearchResult)
  | [] => some []
  | j :: js =>
    if 0 < adj.getD j 0 then
      match books[j]? with
      | none => none
      | some b =>
        Option.map
          (fun rs =>
            { book := b, similarity_score := adj.getD j 0,
              semantic_score := sem.getD j 0, keyword_score := key.getD j 0 } :: rs)
          (collectSearch books sem key adj js)
    else collectSearch books sem key adj js

/-- `search` (lines 190–255), with the outputs of the external vectorizer
calls (`semantic_scores`, `keyword_scores`, lines 203–226) passed in as
oracle inputs.  Returns `none` when the Python call would raise — in
particular when the genre-filter loop raises `AttributeError` on a record
whose genres value is `None`. -/
def search (e : Engine) (sem key : List ℚ) (top_k : Nat) (sw kw : ℚ)
    (genre_filter : Option (List String)) : Option (List SearchResult) :=
  if e.embeddings.isNone || e.books.isEmpty then some []
  else
    match adjustedOf e.books sem key sw kw genre_filter with
    | none => none
    | some adj => collectSearch e.books sem key adj ((argsortDesc adj).take top_k)

/-- The reference-lookup loop of `recommend_similar` (lines 260–264):
first index whose book has `isbn` equal to the argument, scanning from
running index `i`. -/
def findBookIdx (isbn : String) : List Book → Nat → Option Nat
  | [], _ => none
  | b :: bs, i => if b.isbn = some isbn then some i else findBookIdx isbn bs (i + 1)

/-- The result-collection loop of `recommend_similar` (lines 286–291):
keep indices with strictly positive similarity, emitting the book copy with
its score. -/
def collectRec (books : List Book) (sims : List ℚ) :
    List Nat → Option (List RecResult)
  | [] => some []
  | j :: js =>
    if 0 < sims.getD j 0 then
      match books[j]? with
      | none => none
      | some b =>
        Option.map
          (fun rs => { book := b, similarity_score := sims.getD j 0 } :: rs)
          (collectRec books sims js)
    else collectRec books sims js

/-- `recommend_similar` (lines 257–293), with sklearn's cosine similarity
as the oracle `cos`: `similarities` is the cosine of the reference row
against every stored row (line 274), the reference's own entry is then
forced to the sentinel `-1` (line 281), and the top-k positive entries are
returned.  `none` marks the states in which the Python code would raise
(reference found but `embeddings` is `None` or too short). -/
def recommend_similar (e : Engine) (cos : List ℚ → List ℚ → ℚ)
    (isbn : String) (top_k : Nat) : Option (List RecResult) :=
  match findBookIdx isbn e.books 0 with
  | none => some []
  | some book_idx =>
    match e.embeddings with
    | none => none
    | some rows =>
      match rows[book_idx]? with
      | none => none
      | some refRow =>
        let sims := (rows.map fun r => cos refRow r).set book_idx (-1)
        collectRec e.books sims ((argsortDesc sims).take top_k)

/-- `get_statistics` dimension mismatch predicate, modelled from the spec
(§7 InconsistentIndex): the loaded keyword matrix and fitted keyword space
disagree when some matrix row's width differs from the vocabulary size. -/
def dimsMismatch (e : Engine) : Bool :=
  match e.tfidf_matrix, e.tfidf_vectorizer with
  | some m, some v => m.any fun row => row.length ≠ v.vocab.length
  | _, _ => false

/-! ### Infrastructure lemmas -/

instance rankLE.isTotal (a : List ℚ) : IsTotal Nat (rankLE a) := by
  constructor
  intro i j
  rcases lt_trichotomy (a.getD i 0) (a.getD j 0) with h | h | h
  · exact Or.inl (Or.inl h)
  · rcases Nat.le_total i j with hle | hle
    · exact Or.inl (Or.inr ⟨h, hle⟩)
    · exact Or.inr (Or.inr ⟨h.symm, hle⟩)
  · exact Or.inr (Or.inl h)

instance rankLE.isTrans (a : List ℚ) : IsTrans Nat (rankLE a) := by
  constructor
  intro i j k hij hjk
  rcases hij with h1 | ⟨h1, h1'⟩
  · rcases hjk with h2 | ⟨h2, _⟩
    · exact Or.inl (h1.trans h2)
    · exact Or.inl (h2 ▸ h1)
  · rcases hjk with h2 | ⟨h2, h2'⟩
    · exact Or.inl (h1 ▸ h2)
    · exact Or.inr ⟨h1.trans h2, h1'.trans h2'⟩

/-- Strict descending comparison realized by `argsortDesc`: an earlier
output index has a strictly larger score, or an equal score and a strictly
larger corpus position (ties in reverse corpus order). -/
def rankGT (a : List ℚ) (i j : Nat) : Prop :=
  a.getD j 0 < a.getD i 0 ∨ (a.getD j 0 = a.getD i 0 ∧ j < i)

theorem rankGT_le {a : List ℚ} {i j : Nat} (h : rankGT a i j) :
    a.getD j 0 ≤ a.getD i 0 := by
  rcases h with h | ⟨h, _⟩
  · exact le_of_lt h
  · exact le_of_eq h

theorem argsortAsc_nodup (a : List ℚ) : (argsortAsc a).Nodup :=
  (List.perm_insertionSort (rankLE a) (List.range a.length)).symm.nodup
    (List.nodup_range _)

theorem argsortDesc_pairwise (a : List ℚ) : (argsortDesc a).Pairwise (rankGT a) := by
  have hs : (argsortAsc a).Pairwise (rankLE a) :=
    List.sorted_insertionSort (rankLE a) (List.range a.length)
  have hb : (argsortAsc a).Pairwise (fun i j => rankLE a i j ∧ i ≠ j) :=
    hs.and (argsortAsc_nodup a)
  refine List.pairwise_reverse.mpr (hb.imp ?_)
  intro i j h
  rcases h with ⟨hle | ⟨heq, hij⟩, hne⟩
  · exact Or.inl hle
  · exact Or.inr ⟨heq, lt_of_le_of_ne hij hne⟩

theorem getD_set_ne (l : List ℚ) (i k : Nat) (x : ℚ) (h : i ≠ k) :
    (l.set i x).getD k 0 = l.getD k 0 := by
  rw [List.getD_eq_getElem?_getD, List.getElem?_set, if_neg h, ← List.getD_eq_getElem?_getD]

theorem getD_set_self_zero (l : List ℚ) (i : Nat) :
    (l.set i 0).getD i 0 = 0 := by
  rw [List.getD_eq_getElem?_getD, List.getElem?_set, if_pos rfl]
  split
  · rfl
  · rfl

theorem applyGenreFilter_frame (gfl : List String) :
    ∀ (bs : List Book) (i : Nat) (cs out : List ℚ),
      applyGenreFilter gfl bs i cs = some out →
      ∀ k, k < i → out.getD k 0 = cs.getD k 0 := by
  intro bs
  induction bs with
  | nil =>
    intro i cs out h k _
    simp only [applyGenreFilter, Option.some.injEq] at h
    subst h
    rfl
  | cons b bs ih =>
    intro i cs out h k hk
    simp only [applyGenreFilter] at h
    cases hg : genresLower b with
    | none => simp only [hg] at h; exact absurd h (by simp)
    | some g =>
      simp only [hg] at h
      by_cases hm : (gfl.any fun gf => strContains g gf) = true
      · rw [if_pos hm] at h
        exact ih (i + 1) cs out h k (Nat.lt_succ_of_lt hk)
      · rw [if_neg hm] at h
        rw [ih (i + 1) (cs.set i 0) out h k (Nat.lt_succ_of_lt hk)]
        exact getD_set_ne cs i k 0 (ne_of_gt hk)

theorem applyGenreFilter_zero (gfl : List String) :
    ∀ (bs : List Book) (i : Nat) (cs out : List ℚ),
      applyGenreFilter gfl bs i cs = some out →
      ∀ k b g, bs[k]? = some b → genresLower b = some g →
        (gfl.any fun gf => strContains g gf) = false →
        out.getD (i + k) 0 = 0 := by
  intro bs
  induction bs with
  | nil =>
    intro i cs out _ k b g hb
    exact absurd hb (by simp)
  | cons b0 bs ih =>
    intro i cs out h k b g hb hg hm
    simp only [applyGenreFilter] at h
    cases hg0 : genresLower b0 with
    | none => simp only [hg0] at h; exact absurd h (by simp)
    | some g0 =>
      simp only [hg0] at h
      cases k with
      | zero =>
        have hb0 : b0 = b := by simpa using hb
        subst hb0
        have hgg : g0 = g := by rw [hg0] at hg; exact Option.some.inj hg
        subst hgg
        rw [if_neg (by rw [hm]; exact Bool.false_ne_true)] at h
        rw [Nat.add_zero,
          applyGenreFilter_frame gfl bs (i + 1) (cs.set i 0) out h i (Nat.lt_succ_self i)]
        exact getD_set_self_zero cs i
      | succ k' =>
        have hb' : bs[k']? = some b := by simpa using hb
        rw [show i + (k' + 1) = (i + 1) + k' from by omega]
        by_cases hm0 : (gfl.any fun gf => strContains g0 gf) = true
        · rw [if_pos hm0] at h
          exact ih (i + 1) cs out h k' b g hb' hg hm
        · rw [if_neg hm0] at h
          exact ih (i + 1) (cs.set i 0) out h k' b g hb' hg hm

theorem applyGenreFilter_success (gfl : List String) :
    ∀ (bs : List Book) (i : Nat) (cs out : List ℚ),
      applyGenreFilter gfl bs i cs = some out →
      ∀ b ∈ bs, genresLower b ≠ none := by
  intro bs
  induction bs with
  | nil =>
    intro i cs out _ b hb
    exact absurd hb (List.not_mem_nil b)
  | cons b0 bs ih =>
    intro i cs out h b hb
    simp only [applyGenreFilter] at h
    cases hg0 : genresLower b0 with
    | none => simp only [hg0] at h; exact absurd h (by simp)
    | some g0 =>
      simp only [hg0] at h
      rcases List.mem_cons.mp hb with rfl | hb'
      · rw [hg0]
        exact fun hc => Option.noConfusion hc
      · by_cases hm0 : (gfl.any fun gf => strContains g0 gf) = true
        · rw [if_pos hm0] at h
          exact ih (i + 1) cs out h b hb'
        · rw [if_neg hm0] at h
          exact ih (i + 1) (cs.set i 0) out h b hb'

theorem collectSearch_mem (books : List Book) (sem key adj : List ℚ) :
    ∀ (idxs : List Nat) (rs : List SearchResult),
      collectSearch books sem key adj idxs = some rs →
      ∀ r ∈ rs, ∃ j ∈ idxs, 0 < adj.getD j 0 ∧ books[j]? = some r.book ∧
        r.similarity_score = adj.getD j 0 ∧ r.semantic_score = sem.getD j 0 ∧
        r.keyword_score = key.getD j 0 := by
  intro idxs
  induction idxs with
  | nil =>
    intro rs h r hr
    simp only [collectSearch, Option.some.injEq] at h
    subst h
    exact absurd hr (List.not_mem_nil r)
  | cons j js ih =>
    intro rs h r hr
    by_cases hpos : 0 < adj.getD j 0
    · simp only [collectSearch, if_pos hpos] at h
      cases hb : books[j]? with
      | none => rw [hb] at h; exact absurd h (by simp)
      | some b =>
        rw [hb] at h
        cases hc : collectSearch books sem key adj js with
        | none => rw [hc] at h; exact absurd h (by simp)
        | some rs' =>
          rw [hc] at h
          simp only [Option.map_some', Option.some.injEq] at h
          subst h
          rcases List.mem_cons.mp hr with hr | hr
          · subst hr
            exact ⟨j, List.mem_cons_self j js, hpos, hb, rfl, rfl, rfl⟩
          · obtain ⟨j', hj', hrest⟩ := ih rs' hc r hr
            exact ⟨j', List.mem_cons_of_mem j hj', hrest⟩
    · simp only [collectSearch, if_neg hpos] at h
      obtain ⟨j', hj', hrest⟩ := ih rs h r hr
      exact ⟨j', List.mem_cons_of_mem j hj', hrest⟩

theorem collectSearch_length (books : List Book) (sem key adj : List ℚ) :
    ∀ (idxs : List Nat) (rs : List SearchResult),
      collectSearch books sem key adj idxs = some rs → rs.length ≤ idxs.length := by
  intro idxs
  induction idxs with
  | nil =>
    intro rs h
    simp only [collectSearch, Option.some.injEq] at h
    subst h
    simp
  | cons j js ih =>
    intro rs h
    by_cases hpos : 0 < adj.getD j 0
    · simp only [collectSearch, if_pos hpos] at h
      cases hb : books[j]? with
      | none => rw [hb] at h; exact absurd h (by simp)
      | some b =>
        rw [hb] at h
        cases hc : collectSearch books sem key adj js with
        | none => rw [hc] at h; exact absurd h (by simp)
        | some rs' =>
          rw [hc] at h
          simp only [Option.map_some', Option.some.injEq] at h
          subst h
          simpa using Nat.succ_le_succ (ih rs' hc)
    · simp only [collectSearch, if_neg hpos] at h
      exact (ih rs h).trans (Nat.le_succ _)

theorem collectSearch_pairwise (books : List Book) (sem key adj : List ℚ) :
    ∀ (idxs : List Nat) (rs : List SearchResult),
      collectSearch books sem key adj idxs = some rs →
      idxs.Pairwise (rankGT adj) →
      rs.Pairwise (fun r s => s.similarity_score ≤ r.similarity_score) := by
  intro idxs
  induction idxs with
  | nil =>
    intro rs h _
    simp only [collectSearch, Option.some.injEq] at h
    subst h
    exact List.Pairwise.nil
  | cons j js ih =>
    intro rs h hpw
    have hpwt := List.Pairwise.of_cons hpw
    by_cases hpos : 0 < adj.getD j 0
    · simp only [collectSearch, if_pos hpos] at h
      cases hb : books[j]? with
      | none => rw [hb] at h; exact absurd h (by simp)
      | some b =>
        rw [hb] at h
        cases hc : collectSearch books sem key adj js with
        | none => rw [hc] at h; exact absurd h (by simp)
        | some rs' =>
          rw [hc] at h
          simp only [Option.map_some', Option.some.injEq] at h
          subst h
          refine List.Pairwise.cons ?_ (ih rs' hc hpwt)
          intro s hs
          obtain ⟨j', hj', _, _, hsim, _⟩ := collectSearch_mem books sem key adj js rs' hc s hs
          simpa [hsim] using rankGT_le (List.rel_of_pairwise_cons hpw hj')
    · simp only [collectSearch, if_neg hpos] at h
      exact ih rs h hpwt

theorem collectRec_mem (books : List Book) (sims : List ℚ) :
    ∀ (idxs : List Nat) (rs : List RecResult),
      collectRec books sims idxs = some rs →
      ∀ r ∈ rs, ∃ j ∈ idxs, 0 < sims.getD j 0 ∧ books[j]? = some r.book ∧
        r.similarity_score = sims.getD j 0 := by
  intro idxs
  induction idxs with
  | nil =>
    intro rs h r hr
    simp only [collectRec, Option.some.injEq] at h
    subst h
    exact absurd hr (List.not_mem_nil r)
  | cons j js ih =>
    intro rs h r hr
    by_cases hpos : 0 < sims.getD j 0
    · simp only [collectRec, if_pos hpos] at h
      cases hb : books[j]? with
      | none => rw [hb] at h; exact absurd h (by simp)
      | some b =>
        rw [hb] at h
        cases hc : collectRec books sims js with
        | none => rw [hc] at h; exact absurd h (by simp)
        | some rs' =>
          rw [hc] at h
          simp only [Option.map_some', Option.some.injEq] at h
          subst h
          rcases List.mem_cons.mp hr with hr | hr
          · subst hr
            exact ⟨j, List.mem_cons_self j js, hpos, hb, rfl⟩
          · obtain ⟨j', hj', hrest⟩ := ih rs' hc r hr
            exact ⟨j', List.mem_cons_of_mem j hj', hrest⟩
    · simp only [collectRec, if_neg hpos] at h
      obtain ⟨j', hj', hrest⟩ := ih rs h r hr
      exact ⟨j', List.mem_cons_of_mem j hj', hrest⟩

theorem collectRec_length (books : List Book) (sims : List ℚ) :
    ∀ (idxs : List Nat) (rs : List RecResult),
      collectRec books sims idxs = some rs → rs.length ≤ idxs.length := by
  intro idxs
  induction idxs with
  | nil =>
    intro rs h
    simp only [collectRec, Option.some.injEq] at h
    subst h
    simp
  | cons j js ih =>
    intro rs h
    by_cases hpos : 0 < sims.getD j 0
    · simp only [collectRec, if_pos hpos] at h
      cases hb : books[j]? with
      | none => rw [hb] at h; exact absurd h (by simp)
      | some b =>
        rw [hb] at h
        cases hc : collectRec books sims js with
        | none => rw [hc] at h; exact absurd h (by simp)
        | some rs' =>
          rw [hc] at h
          simp only [Option.map_some', Option.some.injEq] at h
          subst h
          simpa using Nat.succ_le_succ (ih rs' hc)
    · simp only [collectRec, if_neg hpos] at h
      exact (ih rs h).trans (Nat.le_succ _)

theorem findBookIdx_eq_none (isbn : String) :
    ∀ (l : List Book) (i : Nat), (∀ b ∈ l, b.isbn ≠ some isbn) →
      findBookIdx isbn l i = none := by
  intro l
  induction l with
  | nil => intro i _; rfl
  | cons b bs ih =>
    intro i hall
    have hb : b.isbn ≠ some isbn := hall b (List.mem_cons_self b bs)
    simp only [findBookIdx, if_neg hb]
    exact ih (i + 1) fun b' hb' => hall b' (List.mem_cons_of_mem b hb')

theorem findBookIdx_spec (isbn : String) :
    ∀ (l : List Book) (i j : Nat), findBookIdx isbn l i = some j →
      i ≤ j ∧ ∃ b, l[j - i]? = some b ∧ b.isbn = some isbn := by
  intro l
  induction l with
  | nil => intro i j h; exact absurd h (by simp [findBookIdx])
  | cons b bs ih =>
    intro i j h
    by_cases hb : b.isbn = some isbn
    · simp only [findBookIdx, if_pos hb, Option.some.injEq] at h
      subst h
      exact ⟨le_refl i, b, by simp, hb⟩
    · simp only [findBookIdx, if_neg hb] at h
      obtain ⟨hle, b', hget, hisbn⟩ := ih (i + 1) j h
      refine ⟨by omega, b', ?_, hisbn⟩
      have : j - i = (j - (i + 1)) + 1 := by omega
      rw [this, List.getElem?_cons_succ]
      exact hget

theorem getD_set_self (l : List ℚ) (i : Nat) (x : ℚ) (h : i < l.length) :
    (l.set i x).getD i 0 = x := by
  rw [List.getD_eq_getElem?_getD, List.getElem?_set, if_pos rfl, if_pos h]
  rfl

/-! ### Concrete sample data used by witnesses and counterexamples -/

/-- Sample book in the Fantasy genre. -/
def bA : Book :=
  { isbn := some "a", title := some "A", description := some "da", genres := PyStr.str "Fantasy" }

/-- Sample book in the Horror genre. -/
def bB : Book :=
  { isbn := some "b", title := some "B", description := some "db", genres := PyStr.str "Horror" }

/-- A two-book indexed corpus. -/
def e1 : Engine :=
  { books := [bA, bB], embeddings := some [[1], [1]],
    tfidf_vectorizer := some { vocab := ["w"] }, tfidf_matrix := some [[1], [1]] }

/-- A one-book indexed corpus, used as the pre-existing state for the
`index_books` claims. -/
def bOld : Book :=
  { isbn := some "old", title := some "Old", description := some "od", genres := PyStr.missing }

/-- A fresh record submitted to a forced rebuild. -/
def bNew : Book :=
  { isbn := some "new", title := some "New", description := some "nd", genres := PyStr.missing }

/-- Engine state holding the already-indexed corpus `[bOld]`. -/
def eIndexed : Engine :=
  { books := [bOld], embeddings := some [[1]],
    tfidf_vectorizer := some { vocab := ["w"] }, tfidf_matrix := some [[1]] }

/-- Embedding oracle that raises on every call. -/
def encodeFail : List String → Except Unit (List (List ℚ)) := fun _ => .error ()

/-- Embedding oracle that succeeds, one unit vector per text. -/
def encodeOk : List String → Except Unit (List (List ℚ)) := fun ts => .ok (ts.map fun _ => [1])

/-- Keyword-fitting oracle that succeeds with a one-word vocabulary. -/
def fitOk : List String → Except Unit (TfidfVectorizer × List (List ℚ)) :=
  fun ts => .ok ({ vocab := ["w"] }, ts.map fun _ => [1])

/-- Constant cosine oracle. -/
def cosOne : List ℚ → List ℚ → ℚ := fun _ _ => 1

/-- Two distinct records sharing one identifier, for the self-exclusion
counterexample. -/
def bDup1 : Book :=
  { isbn := some "x", title := some "Dup1", description := some "d1", genres := PyStr.missing }

/-- Second record bearing the same identifier as `bDup1`. -/
def bDup2 : Book :=
  { isbn := some "x", title := some "Dup2", description := some "d2", genres := PyStr.missing }

/-- Indexed corpus with a duplicated identifier. -/
def eDup : Engine :=
  { books := [bDup1, bDup2], embeddings := some [[1], [1]],
    tfidf_vectorizer := none, tfidf_matrix := none }

/-- A record whose `genres` key is present with value `None`, as the
cleaning pipeline produces for books without genre data. -/
def bNullGenres : Book :=
  { isbn := some "ng", title := some "NG", description := some "dng", genres := PyStr.null }

/-- Indexed corpus containing a genre-less (NULL genres) record. -/
def eNull : Engine :=
  { books := [bA, bNullGenres], embeddings := some [[1], [1]],
    tfidf_vectorizer := some { vocab := ["w"] }, tfidf_matrix := some [[1], [1]] }

/-- The wizard book of the spec's concrete scenario (§8.10). -/
def bWizard : Book :=
  { isbn := some "w", title := some "Wizard Book",
    description := some "A boy wizard fights evil at a magic school", genres := PyStr.str "Fantasy" }

/-- The detective book of the spec's concrete scenario. -/
def bDetective : Book :=
  { isbn := some "d", title := some "Detective Book",
    description := some "A detective solves a murder in London", genres := PyStr.str "Mystery" }

/-- The description-less book of the spec's concrete scenario. -/
def bNoDesc : Book :=
  { isbn := some "n", title := some "No Description", description := none, genres := PyStr.missing }

/-- An embeddings cache whose keyword matrix has two columns. -/
def epMismatch : EmbPickle := { embeddings := some [[1]], tfidf_matrix := some [[1, 2]] }

/-- An index cache whose fitted keyword space has a one-word vocabulary,
mismatching `epMismatch`. -/
def ipMismatch : IdxPickle := { books := [bA], tfidf_vectorizer := some { vocab := ["w"] } }

/-- The engine state after loading the mismatched pair at startup. -/
def eLoaded : Engine :=
  load_if_exists initEngine (some (.ok epMismatch)) (some (.ok ipMismatch))

/-! ### Claim theorems -/

/-- C10: passing an empty list as the genre filter behaves identically to
passing no filter at all: the empty list is falsy at line 235, so no
combined score is zeroed and the whole search result coincides with the
unfiltered one. -/
theorem search_empty_genre_filter (e : Engine) (sem key : List ℚ) (tk : Nat) (sw kw : ℚ) :
    adjustedOf e.books sem key sw kw (some []) = adjustedOf e.books sem key sw kw none ∧
    search e sem key tk sw kw (some []) = search e sem key tk sw kw none :=
  ⟨rfl, rfl⟩

/-- C7: `search` and `recommend_similar` on an empty corpus return the
empty sequence without raising, and `recommend_similar` with an identifier
matching no record returns the empty sequence rather than an error. -/
theorem search_recommend_empty_safe (e : Engine) (sem key : List ℚ) (tk : Nat) (sw kw : ℚ)
    (gf : Option (List String)) (cos : List ℚ → List ℚ → ℚ) (isbn : String) :
    (e.books = [] →
      search e sem key tk sw kw gf = some [] ∧
      recommend_similar e cos isbn tk = some []) ∧
    ((∀ b ∈ e.books, b.isbn ≠ some isbn) → recommend_similar e cos isbn tk = some []) := by
  constructor
  · intro h
    constructor
    · simp [search, h]
    · simp [recommend_similar, h, findBookIdx]
  · intro h
    simp [recommend_similar, findBookIdx_eq_none isbn e.books 0 h]

/-- Witness for C7 at the freshly initialized engine and at an identifier
unknown to a non-empty corpus. -/
theorem search_recommend_empty_safe_witness :
    search initEngine [] [] 10 1 0 none = some [] ∧
    recommend_similar initEngine cosOne "x" 10 = some [] ∧
    recommend_similar e1 cosOne "zzz" 10 = some [] :=
  ⟨((search_recommend_empty_safe initEngine [] [] 10 1 0 none cosOne "x").1 rfl).1,
   ((search_recommend_empty_safe initEngine [] [] 10 1 0 none cosOne "x").1 rfl).2,
   (search_recommend_empty_safe e1 [] [] 10 1 0 none cosOne "zzz").2 (by decide)⟩

/-- C2: evaluating `index_books` at the failing input.  With a corpus
already indexed, a forced rebuild whose embedding call raises propagates
the failure (`raised = true`) but leaves the engine partially updated:
`books` already holds the new records while `embeddings` still holds the
pre-call vectors, contradicting the spec's "do not partially update the
corpus". -/
theorem index_books_partial_update_on_failure :
    (index_books eIndexed encodeFail fitOk [bNew] true).raised = true ∧
    (index_books eIndexed encodeFail fitOk [bNew] true).state.books = [bNew] ∧
    (index_books eIndexed encodeFail fitOk [bNew] true).state.embeddings = some [[1]] ∧
    eIndexed.books = [bOld] ∧ bNew ≠ bOld := by decide

/-- C9 counterexample: a forced rebuild does NOT always fully replace the
corpus: when no submitted record has a description, `index_books` warns and
returns before touching any state, so the old corpus survives a
`force_reindex=True` call. -/
theorem index_books_force_noop_counterexample :
    (index_books eIndexed encodeOk fitOk [bNoDesc] true).state = eIndexed ∧
    eIndexed.books = [bOld] ∧ hasDescription bNoDesc = false := by decide

/-- C9 amended: without the force flag, a call while embeddings exist is a
no-op that reports "already built" and leaves every state field unchanged;
with the force flag the corpus is fully replaced provided at least one
submitted record has a description and both vectorizing calls succeed. -/
theorem index_books_noop_and_force_replace (e : Engine)
    (encode : List String → Except Unit (List (List ℚ)))
    (fitT : List String → Except Unit (TfidfVectorizer × List (List ℚ)))
    (books : List Book) :
    (e.embeddings.isSome = true →
      index_books e encode fitT books false =
        { state := e, raised := false, log := [LogMsg.embeddingsExist] }) ∧
    (∀ embs vec mat,
      encode ((books.filter hasDescription).map bookText) = .ok embs →
      fitT ((books.filter hasDescription).map bookText) = .ok (vec, mat) →
      (books.filter hasDescription).isEmpty = false →
      (index_books e encode fitT books true).state =
        { books := books.filter hasDescription, embeddings := some embs,
          tfidf_vectorizer := some vec, tfidf_matrix := some mat }) := by
  constructor
  · intro h
    simp [index_books, h]
  · intro embs vec mat henc hfit hne
    simp [index_books, hne, henc, hfit]

/-- Witness for C9 at the already-indexed engine: the unforced call is the
reported no-op, the forced call fully replaces the state. -/
theorem index_books_noop_witness :
    index_books eIndexed encodeOk fitOk [bNew] false =
      { state := eIndexed, raised := false, log := [LogMsg.embeddingsExist] } ∧
    (index_books eIndexed encodeOk fitOk [bNew] true).state =
      { books := [bNew], embeddings := some [[1]],
        tfidf_vectorizer := some { vocab := ["w"] }, tfidf_matrix := some [[1]] } :=
  ⟨(index_books_noop_and_force_replace eIndexed encodeOk fitOk [bNew]).1 rfl,
   ((index_books_noop_and_force_replace eIndexed encodeOk fitOk [bNew]).2
      _ _ _ rfl rfl (by decide)).trans (by decide)⟩

/-- C8 counterexample: at the spec's three-book scenario the complete
count-bearing report of a forced build is the printed log
`Indexing 3 / Books with descriptions: 2 / Indexed 2`: the function
returns no build-report value at all and no message states the skipped
count `1`; only the indexed count (and the submitted total) is reported. -/
theorem index_books_report_counterexample :
    (index_books initEngine encodeOk fitOk [bWizard, bDetective, bNoDesc] true).log =
      [LogMsg.indexing 3, LogMsg.withDescriptions 2, LogMsg.indexed 2] ∧
    (index_books initEngine encodeOk fitOk [bWizard, bDetective, bNoDesc] true).state.books =
      [bWizard, bDetective] := by decide

/-- C8 amended: a forced build excludes every record lacking a description
from the indexed corpus, and its printed log reports the submitted total
and the indexed count (from which the skipped count is the difference); no
report value is returned and no skipped count is stated. -/
theorem index_books_excludes_and_reports (e : Engine)
    (encode : List String → Except Unit (List (List ℚ)))
    (fitT : List String → Except Unit (TfidfVectorizer × List (List ℚ)))
    (books : List Book)
    (embs : List (List ℚ)) (vm : TfidfVectorizer × List (List ℚ))
    (henc : encode ((books.filter hasDescription).map bookText) = .ok embs)
    (hfit : fitT ((books.filter hasDescription).map bookText) = .ok vm)
    (hne : (books.filter hasDescription).isEmpty = false) :
    (index_books e encode fitT books true).state.books = books.filter hasDescription ∧
    (index_books e encode fitT books true).raised = false ∧
    (index_books e encode fitT books true).log =
      [LogMsg.indexing books.length,
       LogMsg.withDescriptions (books.filter hasDescription).length,
       LogMsg.indexed (books.filter hasDescription).length] := by
  simp [index_books, hne, henc, hfit]

/-- Witness for C8 at the spec's three-book scenario: one record lacks a
description, two are indexed. -/
theorem index_books_excludes_and_reports_witness :
    (index_books initEngine encodeOk fitOk [bWizard, bDetective, bNoDesc] true).state.books =
      [bWizard, bDetective] :=
  (index_books_excludes_and_reports initEngine encodeOk fitOk
      [bWizard, bDetective, bNoDesc] _ _ rfl rfl (by decide)).1.trans (by decide)

/-- C3 counterexample: a loadable but dimension-mismatched cache pair (a
keyword matrix with two columns against a one-word fitted vocabulary) is
accepted: the load is not rejected, the corpus is non-empty afterwards, and
a subsequent search returns results — the engine performs no consistency
check between the two files. -/
theorem load_mismatch_accepted :
    dimsMismatch eLoaded = true ∧
    eLoaded.books = [bA] ∧
    eLoaded.embeddings = some [[1]] ∧
    search eLoaded [1] [1] 10 1 0 none =
      some [{ book := bA, similarity_score := 1, semantic_score := 1, keyword_score := 1 }] := by
  decide

/-- C3 amended: a partial pair (either cache file missing) performs no load
at all and an unreadable pair (either unpickling raising) fails closed: in
every such case the engine ends with an empty record list and no embedding
array, every subsequent search returns the empty sequence, and no exception
escapes.  A pair that unpickles successfully is accepted without any
dimension-consistency check. -/
theorem load_fail_closed_missing_or_corrupt
    (embFile : Option (Except Unit EmbPickle)) (idxFile : Option (Except Unit IdxPickle))
    (h : embFile = none ∨ idxFile = none ∨
         embFile = some (.error ()) ∨ idxFile = some (.error ())) :
    (load_if_exists initEngine embFile idxFile).books = [] ∧
    (load_if_exists initEngine embFile idxFile).embeddings = none ∧
    ∀ sem key tk sw kw gf,
      search (load_if_exists initEngine embFile idxFile) sem key tk sw kw gf = some [] := by
  have hmain : (load_if_exists initEngine embFile idxFile).books = [] ∧
      (load_if_exists initEngine embFile idxFile).embeddings = none := by
    rcases h with h | h | h | h
    · subst h
      cases idxFile <;> simp [load_if_exists, initEngine]
    · subst h
      cases embFile <;> simp [load_if_exists, initEngine]
    · subst h
      cases idxFile with
      | none => simp [load_if_exists, initEngine]
      | some iF => simp [load_if_exists]
    · subst h
      cases embFile with
      | none => simp [load_if_exists, initEngine]
      | some eF =>
        cases eF <;> simp [load_if_exists, initEngine]
  refine ⟨hmain.1, hmain.2, ?_⟩
  intro sem key tk sw kw gf
  simp [search, hmain.2]

/-- Witness for C3 at a corrupt embeddings file alongside a healthy index
file. -/
theorem load_fail_closed_witness :
    search (load_if_exists initEngine (some (.error ())) (some (.ok ipMismatch)))
      [] [] 10 1 0 none = some [] :=
  (load_fail_closed_missing_or_corrupt (some (.error ())) (some (.ok ipMismatch))
      (Or.inr (Or.inr (Or.inl rfl)))).2.2 [] [] 10 1 0 none

/-- C5: every entry returned by `search` has a strictly positive combined
score and at most `top_k` entries are returned; likewise
`recommend_similar` keeps only strictly positive similarity scores and
returns at most `top_k` results, given `top_k ≥ 1`. -/
theorem search_topk_positive (e : Engine) (sem key : List ℚ) (tk : Nat) (sw kw : ℚ)
    (gf : Option (List String)) (cos : List ℚ → List ℚ → ℚ) (isbn : String)
    (htk : 1 ≤ tk) :
    (∀ rs, search e sem key tk sw kw gf = some rs →
      rs.length ≤ tk ∧ ∀ r ∈ rs, 0 < r.similarity_score) ∧
    (∀ rs, recommend_similar e cos isbn tk = some rs →
      rs.length ≤ tk ∧ ∀ r ∈ rs, 0 < r.similarity_score) := by
  constructor
  · intro rs h
    by_cases hc : (e.embeddings.isNone || e.books.isEmpty) = true
    · simp only [search] at h
      rw [if_pos hc] at h
      have hrs : rs = [] := by simpa using h.symm
      subst hrs
      exact ⟨Nat.zero_le tk, fun r hr => absurd hr (List.not_mem_nil r)⟩
    · simp only [search] at h
      rw [if_neg hc] at h
      cases hadj : adjustedOf e.books sem key sw kw gf with
      | none => simp only [hadj] at h; exact absurd h (by simp)
      | some adj =>
        simp only [hadj] at h
        refine ⟨?_, ?_⟩
        · have hl := collectSearch_length _ _ _ _ _ _ h
          rw [List.length_take] at hl
          exact hl.trans (min_le_left _ _)
        · intro r hr
          obtain ⟨j, _, hpos, _, hsim, _, _⟩ := collectSearch_mem _ _ _ _ _ _ h r hr
          rw [hsim]
          exact hpos
  · intro rs h
    cases hf : findBookIdx isbn e.books 0 with
    | none =>
      simp only [recommend_similar, hf] at h
      have hrs : rs = [] := by simpa using h.symm
      subst hrs
      exact ⟨Nat.zero_le tk, fun r hr => absurd hr (List.not_mem_nil r)⟩
    | some bi =>
      simp only [recommend_similar, hf] at h
      cases hemb : e.embeddings with
      | none => simp only [hemb] at h; exact absurd h (by simp)
      | some rows =>
        simp only [hemb] at h
        cases hrow : rows[bi]? with
        | none => simp only [hrow] at h; exact absurd h (by simp)
        | some refRow =>
          simp only [hrow] at h
          refine ⟨?_, ?_⟩
          · have hl := collectRec_length _ _ _ _ h
            rw [List.length_take] at hl
            exact hl.trans (min_le_left _ _)
          · intro r hr
            obtain ⟨j, _, hpos, _, hsim⟩ := collectRec_mem _ _ _ _ h r hr
            rw [hsim]
            exact hpos

/-- Witness for C5 at a concrete two-book search and recommendation. -/
theorem search_topk_positive_witness :
    ([{ book := bB, similarity_score := 1, semantic_score := 1, keyword_score := (0 : ℚ) },
      { book := bA, similarity_score := 1, semantic_score := 1, keyword_score := 0 }] :
      List SearchResult).length ≤ 2 ∧
    ([{ book := bB, similarity_score := (1 : ℚ) }] : List RecResult).length ≤ 2 :=
  ⟨((search_topk_positive e1 [1, 1] [0, 0] 2 1 0 none cosOne "a" (by decide)).1
     [{ book := bB, similarity_score := 1, semantic_score := 1, keyword_score := 0 },
      { book := bA, similarity_score := 1, semantic_score := 1, keyword_score := 0 }]
     (by decide)).1,
   ((search_topk_positive e1 [1, 1] [0, 0] 2 1 0 none cosOne "a" (by decide)).2
     [{ book := bB, similarity_score := 1 }] (by decide)).1⟩

/-- On the success path — a truthy genre filter over a corpus in which no
record's genres value is `None` — the filter behaves as the spec intends:
every record whose lowered genre text contains no filter term has its
combined score zeroed, and every returned result's genre text contains
some filter term, with the reported semantic/keyword component scores
being the unfiltered per-record scores.  (The None-genres case instead
raises, see `search_genre_filter_crash`.) -/
theorem search_genre_filter_zeroes (e : Engine) (sem key : List ℚ) (tk : Nat) (sw kw : ℚ)
    (terms : List String) (hact : gfActive (some terms) = true)
    (adj : List ℚ)
    (hadj : adjustedOf e.books sem key sw kw (some terms) = some adj) :
    (∀ i b g, e.books[i]? = some b → genresLower b = some g →
      ((terms.map strLower).any fun gf => strContains g gf) = false →
      adj.getD i 0 = 0) ∧
    (∀ rs, search e sem key tk sw kw (some terms) = some rs → ∀ r ∈ rs,
      ∃ i g, e.books[i]? = some r.book ∧ genresLower r.book = some g ∧
        ((terms.map strLower).any fun gf => strContains g gf) = true ∧
        r.semantic_score = sem.getD i 0 ∧ r.keyword_score = key.getD i 0) := by
  simp only [adjustedOf, if_pos hact, Option.getD_some] at hadj
  have hzero : ∀ i b g, e.books[i]? = some b → genresLower b = some g →
      ((terms.map strLower).any fun gf => strContains g gf) = false →
      adj.getD i 0 = 0 := by
    intro i b g hb hg hm
    have := applyGenreFilter_zero (terms.map strLower) e.books 0 _ adj hadj i b g hb hg hm
    rwa [Nat.zero_add] at this
  refine ⟨hzero, ?_⟩
  intro rs h r hr
  by_cases hc : (e.embeddings.isNone || e.books.isEmpty) = true
  · simp only [search] at h
    rw [if_pos hc] at h
    have hrs : rs = [] := by simpa using h.symm
    subst hrs
    exact absurd hr (List.not_mem_nil r)
  · simp only [search] at h
    rw [if_neg hc] at h
    have hadj2 : adjustedOf e.books sem key sw kw (some terms) = some adj := by
      simp only [adjustedOf, if_pos hact, Option.getD_some]
      exact hadj
    simp only [hadj2] at h
    obtain ⟨j, _, hpos, hbook, _, hsem, hkey⟩ := collectSearch_mem _ _ _ _ _ _ h r hr
    have hmem : r.book ∈ e.books := by
      obtain ⟨hlt, heq⟩ := List.getElem?_eq_some.mp hbook
      exact heq ▸ List.getElem_mem hlt
    cases hgl : genresLower r.book with
    | none =>
      exact absurd hgl (applyGenreFilter_success (terms.map strLower) e.books 0 _ adj hadj
        r.book hmem)
    | some g =>
      have hmatch : ((terms.map strLower).any fun gf => strContains g gf) = true := by
        by_contra hm
        rw [Bool.not_eq_true] at hm
        rw [hzero j r.book g hbook hgl hm] at hpos
        exact absurd hpos (lt_irrefl 0)
      exact ⟨j, g, hbook, rfl, hmatch, hsem, hkey⟩

/-- C4: evaluating `search` at the failing input.  The corpus holds a
record whose `genres` key is present with value `None` (the shape the
cleaning/storage pipeline produces for books without genre data), so
`book.get('genres', '').lower()` at line 238 raises `AttributeError`: the
genre-filtered search crashes (`none`) instead of zeroing that record's
combined score and returning the filter-passing record, while the same
corpus and scores search fine with no filter. -/
theorem search_genre_filter_crash :
    eNull.books = [bA, bNullGenres] ∧ bNullGenres.genres = PyStr.null ∧
    genresLower bNullGenres = none ∧
    adjustedOf eNull.books [2, 1] [1, 1] 1 0 (some ["fantasy"]) = none ∧
    search eNull [2, 1] [1, 1] 2 1 0 (some ["fantasy"]) = none ∧
    search eNull [2, 1] [1, 1] 2 1 0 none =
      some [{ book := bA, similarity_score := 2, semantic_score := 2, keyword_score := 1 },
            { book := bNullGenres, similarity_score := 1, semantic_score := 1,
              keyword_score := 1 }] := by
  decide

/-- C1 counterexample: two records with equal combined scores come back in
REVERSE corpus order, not corpus order: with `combined = [1, 1]` the search
returns the record at corpus position 1 before the record at position 0,
because `np.argsort(...)[::-1]` reverses the ascending tie order. -/
theorem search_ties_reversed_counterexample :
    search e1 [1, 1] [0, 0] 2 1 0 none =
      some [{ book := bB, similarity_score := 1, semantic_score := 1, keyword_score := 0 },
            { book := bA, similarity_score := 1, semantic_score := 1, keyword_score := 0 }] ∧
    e1.books = [bA, bB] ∧ bA ≠ bB := by decide

/-- C1 amended: on a non-empty indexed corpus, search results are sorted by
combined score in descending order, and the chosen index sequence is
strictly ordered by descending score with ties broken by DESCENDING corpus
position (reverse corpus order), under the stable deterministic model of
`np.argsort`. -/
theorem search_sorted_desc (e : Engine) (sem key : List ℚ) (tk : Nat) (sw kw : ℚ)
    (gf : Option (List String)) (h1 : e.embeddings.isNone = false)
    (h2 : e.books.isEmpty = false) :
    (∀ adj, adjustedOf e.books sem key sw kw gf = some adj →
      search e sem key tk sw kw gf =
        collectSearch e.books sem key adj ((argsortDesc adj).take tk) ∧
      ((argsortDesc adj).take tk).Pairwise (rankGT adj)) ∧
    (∀ rs, search e sem key tk sw kw gf = some rs →
      rs.Pairwise fun r s => s.similarity_score ≤ r.similarity_score) := by
  have hcond : (e.embeddings.isNone || e.books.isEmpty) = false := by
    rw [h1, h2]
    rfl
  constructor
  · intro adj hadj
    constructor
    · simp [search, hcond, hadj]
    · exact List.Pairwise.sublist (List.take_sublist tk _) (argsortDesc_pairwise adj)
  · intro rs hrs
    simp only [search] at hrs
    rw [hcond] at hrs
    simp only [Bool.false_eq_true, if_false] at hrs
    cases hadj : adjustedOf e.books sem key sw kw gf with
    | none => simp only [hadj] at hrs; exact absurd hrs (by simp)
    | some adj =>
      simp only [hadj] at hrs
      exact collectSearch_pairwise _ _ _ _ _ _ hrs
        (List.Pairwise.sublist (List.take_sublist tk _) (argsortDesc_pairwise adj))

/-- Witness for C1 on the two-book corpus. -/
theorem search_sorted_desc_witness :
    ((argsortDesc (combinedOf 1 0 [1, 1] [0, 0])).take 2).Pairwise
      (rankGT (combinedOf 1 0 [1, 1] [0, 0])) :=
  ((search_sorted_desc e1 [1, 1] [0, 0] 2 1 0 none rfl rfl).1
    (combinedOf 1 0 [1, 1] [0, 0]) rfl).2

/-- C6 counterexample: when two corpus records share the reference
identifier, `recommend_similar` CAN return a result whose identifier equals
the reference identifier: only the first matching position receives the
`-1` sentinel, so the duplicate at position 1 is returned. -/
theorem recommend_self_duplicate_counterexample :
    recommend_similar eDup cosOne "x" 5 =
      some [{ book := bDup2, similarity_score := 1 }] ∧
    bDup2.isbn = some "x" ∧ eDup.books = [bDup1, bDup2] := by decide

/-- C6 amended: when at most one corpus record bears the reference
identifier (the data model's uniqueness invariant), `recommend_similar`
never returns a result whose identifier equals the reference identifier:
the reference's own similarity is forced to the sentinel `-1`, below the
strict positivity threshold. -/
theorem recommend_no_self_unique (e : Engine) (cos : List ℚ → List ℚ → ℚ)
    (isbn : String) (tk : Nat)
    (hU : e.books.Pairwise fun a b => ¬(a.isbn = some isbn ∧ b.isbn = some isbn)) :
    ∀ rs, recommend_similar e cos isbn tk = some rs →
      ∀ r ∈ rs, r.book.isbn ≠ some isbn := by
  intro rs h r hr hcon
  cases hf : findBookIdx isbn e.books 0 with
  | none =>
    simp only [recommend_similar, hf] at h
    have hrs : rs = [] := by simpa using h.symm
    subst hrs
    exact absurd hr (List.not_mem_nil r)
  | some bi =>
    simp only [recommend_similar, hf] at h
    cases hemb : e.embeddings with
    | none => simp only [hemb] at h; exact absurd h (by simp)
    | some rows =>
      simp only [hemb] at h
      cases hrow : rows[bi]? with
      | none => simp only [hrow] at h; exact absurd h (by simp)
      | some refRow =>
        simp only [hrow] at h
        obtain ⟨j, _, hpos, hbook, _⟩ := collectRec_mem _ _ _ _ h r hr
        obtain ⟨-, b0, hb0, hb0isbn⟩ := findBookIdx_spec isbn e.books 0 bi hf
        rw [Nat.sub_zero] at hb0
        by_cases hji : j = bi
        · subst hji
          have hbilt : j < rows.length := (List.getElem?_eq_some.mp hrow).1
          have hmap : j < (rows.map fun v => cos refRow v).length := by simpa using hbilt
          rw [getD_set_self _ j (-1) hmap] at hpos
          exact absurd hpos (by decide)
        · obtain ⟨hjlt, hjget⟩ := List.getElem?_eq_some.mp hbook
          obtain ⟨hbilt, hbiget⟩ := List.getElem?_eq_some.mp hb0
          have hpw := List.pairwise_iff_getElem.mp hU
          rcases Nat.lt_or_ge j bi with hlt | hge
          · exact hpw j bi hjlt hbilt hlt ⟨by rw [hjget]; exact hcon, by rw [hbiget]; exact hb0isbn⟩
          · have hlt2 : bi < j := lt_of_le_of_ne hge (Ne.symm hji)
            exact hpw bi j hbilt hjlt hlt2 ⟨by rw [hbiget]; exact hb0isbn, by rw [hjget]; exact hcon⟩

/-- Witness for C6 on a corpus with distinct identifiers. -/
theorem recommend_no_self_unique_witness :
    ({ book := bB, similarity_score := 1 } : RecResult).book.isbn ≠ some "a" :=
  recommend_no_self_unique e1 cosOne "a" 5 (by decide)
    [{ book := bB, similarity_score := 1 }] (by decide)
    { book := bB, similarity_score := 1 } (by decide)
